import Mathlib

/-!
# Verification of the laps2onepassword reconciliation core

Shallow embedding of `src/main.go` (the variant carrying the update logic):
the LAPS-to-1Password data model, the FILETIME timestamp decoder
`getTimeFromFiletime`, the reconciliation pass `CompareLapsToOnepass` and
the store-facing operations `GetOnePassEntries`,
`CreateOnPassEntryFromLapsEntry` and `UpdateOnPassEntry`.

External collaborators (the 1Password Connect client and LDAP) are modelled
by explicit oracle records supplying the outcome of each network call; the
item-update and item-create operations additionally report the store calls
they issue and the in-memory state of the entry they were handed, so that
frame and error-propagation properties can be stated.

`time.Time` values are represented by their exact offset in nanoseconds
from 1601-01-01T00:00:00 UTC: on the range reachable by this program
(about 29000 years past 1601) Go's `time.Time.Add` is exact, so integer
arithmetic is a faithful model.  Go `int64` overflow is modelled explicitly
by `int64wrap` where it can occur.
-/

namespace LapsToOnepass

/-- `onepassword.ItemField` from the 1Password connect-sdk-go dependency,
restricted to the fields this program reads or writes.  Go's `Type` is a
Lean keyword and is rendered `typ`. -/
structure ItemField where
  id : String
  typ : String
  purpose : String
  label : String
  value : String
deriving DecidableEq

/-- `onepassword.Item` from connect-sdk-go, restricted to the fields this
program uses.  The nested `Vault.ID` is flattened to `vaultID`.
`Fields []*ItemField` is a slice of pointers in Go; entries are modelled as
owning their field objects, which matches how `GetOnePassEntries` builds
the snapshot (each item is fetched separately, so field objects are never
shared between two entries). -/
structure Item where
  id : String
  category : String
  title : String
  vaultID : String
  fields : List ItemField
deriving DecidableEq

/-- `onepassword.Item.GetValue` from the connect-sdk-go dependency (not in
src/): returns the `Value` of the first field whose `Label` equals the
argument, comparing case-sensitively with Go `==`, and `""` when no field
matches.  The SDK's section-qualified branch (taken when the argument
contains `"."`) is omitted: this program only calls `GetValue "password"`,
which contains no dot. -/
def Item.GetValue (i : Item) (field : String) : String :=
  match i.fields.find? (fun f => f.label == field) with
  | some f => f.value
  | none => ""

/-- `LapsEntry` (src/main.go:31-36): one LAPS record read from the
directory.  `expiration` is the decoded `time.Time`, in the offset
representation described above. -/
structure LapsEntry where
  name : String
  dnshostname : String
  password : String
  expiration : Int
deriving DecidableEq

/-- `onepassword.Vault` from connect-sdk-go, restricted to the fields this
program uses. -/
structure Vault where
  id : String
  name : String
deriving DecidableEq

/-! ## The FILETIME decoder (src/main.go:149-162) -/

/-- `math.MaxInt64`. -/
def int64Max : Int := 9223372036854775807

/-- `math.MinInt64`. -/
def int64Min : Int := -9223372036854775808

/-- Two's-complement wraparound into Go's `int64` range, as Go's
overflowing integer arithmetic behaves. -/
def int64wrap (x : Int) : Int :=
  (x + 9223372036854775808) % 18446744073709551616 - 9223372036854775808

/-- `maxd := time.Duration(math.MaxInt64).Truncate(100 * time.Nanosecond)`
(src/main.go:150): `math.MaxInt64` rounded toward zero to a multiple of
100 nanoseconds. -/
def maxd : Int := 9223372036854775800

/-- `maxdUnits := int64(maxd / 100)` (src/main.go:151). -/
def maxdUnits : Int := maxd / 100

/-- The 1601-01-01T00:00:00 UTC epoch,
`time.Date(1601, 1, 1, 0, 0, 0, 0, time.UTC)` (src/main.go:153), which is
the origin of the offset representation of `time.Time`. -/
def epoch1601 : Int := 0

/-- The loop of `getTimeFromFiletime` (src/main.go:154-160): while the
remaining tick count exceeds `maxdUnits`, add `maxd` to the accumulated
time `t` and subtract `maxdUnits` from the remainder; finally, unless the
remainder is zero, add `time.Duration(input * 100)`.  The subtraction
`input -= maxdUnits` cannot overflow `int64` (its operand exceeds
`maxdUnits > 0`), so it is modelled exactly; the multiplication
`input * 100` can overflow for negative remainders and is wrapped. -/
def filetimeLoop (input : Int) (t : Int) : Int :=
  if h : maxdUnits < input then filetimeLoop (input - maxdUnits) (t + maxd)
  else if input = 0 then t
  else t + int64wrap (input * 100)
termination_by input.toNat
decreasing_by
  simp only [maxdUnits, maxd] at h ⊢
  omega

/-- `getTimeFromFiletime` (src/main.go:149-162): decode a Windows FILETIME
tick count (100-nanosecond intervals since 1601-01-01 UTC) into an instant,
in the offset representation. -/
def getTimeFromFiletime (input : Int) : Int :=
  filetimeLoop input epoch1601

/-! ## Store calls and oracles

Every operation against the 1Password Connect server is recorded in a call
trace, so that "performs no item listing / no item creation / one write"
style properties can be stated.  The outcome of each network call is
supplied by an oracle record mirroring the order in which the Go code asks
the client for results. -/

/-- One call against the 1Password Connect client. -/
inductive StoreCall where
  | getVaultsByTitle (title : String)
  | getItems (vaultId : String)
  | getItem (itemId : String) (vaultId : String)
  | createItem (it : Item) (vaultId : String)
  | updateItem (it : Item) (vaultId : String)
deriving DecidableEq

/-! ## GetOnePassEntries (src/main.go:219-258) -/

/-- Oracle for one invocation of `GetOnePassEntries`: the outcome of
`connect.NewClientFromEnvironment`, of `client.GetVaultsByTitle` (error or
vault list), of `client.GetItems`, and of each per-item `client.GetItem`
(indexed by position in the listed items). -/
structure ReadEnv where
  clientErr : Option String
  vaultsErr : Option String
  vaults : List Vault
  vaultTitle : String
  listErr : Option String
  listItems : List Item
  itemErr : Nat → Option String
  fullItem : Nat → Item

/-- The per-item fetch loop of `GetOnePassEntries` (src/main.go:248-255):
`client.GetItem` for each listed item, aborting at the first error. -/
def fetchFullItems (env : ReadEnv) : Nat → List Item → Except String (List Item) × List StoreCall
  | _, [] => (.ok [], [])
  | i, it :: rest =>
    match env.itemErr i with
    | some e => (.error e, [.getItem it.id it.vaultID])
    | none =>
      match fetchFullItems env (i + 1) rest with
      | (.ok items, calls) => (.ok (env.fullItem i :: items), .getItem it.id it.vaultID :: calls)
      | (.error e, calls) => (.error e, .getItem it.id it.vaultID :: calls)

/-- `GetOnePassEntries` (src/main.go:219-258): resolve the configured vault
title to exactly one vault (zero or several matches are errors), list its
items, fetch each item's full detail.  Returns the Go result together with
the trace of store calls issued. -/
def GetOnePassEntries (env : ReadEnv) : Except String (List Item) × List StoreCall :=
  match env.clientErr with
  | some e => (.error e, [])
  | none =>
    match env.vaultsErr with
    | some e => (.error e, [.getVaultsByTitle env.vaultTitle])
    | none =>
      match env.vaults with
      | [] => (.error ("vault " ++ env.vaultTitle ++ " not found"), [.getVaultsByTitle env.vaultTitle])
      | vault :: [] =>
        match env.listErr with
        | some e => (.error e, [.getVaultsByTitle env.vaultTitle, .getItems vault.id])
        | none =>
          match fetchFullItems env 0 env.listItems with
          | (r, calls) => (r, .getVaultsByTitle env.vaultTitle :: .getItems vault.id :: calls)
      | _ :: _ :: _ =>
        (.error ("fault " ++ env.vaultTitle ++ " found more than once"), [.getVaultsByTitle env.vaultTitle])

/-! ## CreateOnPassEntryFromLapsEntry (src/main.go:302-361) -/

/-- Oracle for one invocation of `CreateOnPassEntryFromLapsEntry`: client
construction, vault lookup, the `LAPS_USERNAME` environment value, the
`uuid.New()` results for the item and its first two fields,
`time.Now().String()`, and the outcome of `client.CreateItem`. -/
structure CreateEnv where
  clientErr : Option String
  vaultsErr : Option String
  vaults : List Vault
  vaultTitle : String
  lapsUsername : String
  itemUUID : String
  userFieldUUID : String
  passFieldUUID : String
  now : String
  createErr : Option String

/-- Result of `CreateOnPassEntryFromLapsEntry`: the Go `error` it returns,
the item inserted into the store (when the insert succeeded), and the
trace of store calls issued. -/
structure CreateOutcome where
  retErr : Option String
  created : Option Item
  calls : List StoreCall
deriving DecidableEq

/-- The item literal built by `CreateOnPassEntryFromLapsEntry`
(src/main.go:323-351): category LOGIN, title `dnshostname`, and three
fields — username (label `"Username"`, value from `LAPS_USERNAME`),
password (label `"Password"`, value from the record) and notes (label
`"notesPlain"`, a creation marker carrying the current time). -/
def newCreatedItem (env : CreateEnv) (lapsEntry : LapsEntry) (vaultId : String) : Item :=
  { id := env.itemUUID
    category := "LOGIN"
    title := lapsEntry.dnshostname
    vaultID := vaultId
    fields :=
      [ { id := env.userFieldUUID, typ := "STRING", purpose := "USERNAME",
          label := "Username", value := env.lapsUsername },
        { id := env.passFieldUUID, typ := "STRING", purpose := "PASSWORD",
          label := "Password", value := lapsEntry.password },
        { id := "notesPlain", typ := "STRING", purpose := "NOTES",
          label := "notesPlain", value := "Created by laps2onepassword on " ++ env.now } ] }

/-- `CreateOnPassEntryFromLapsEntry` (src/main.go:302-361).  When the vault
lookup succeeds but matches zero or several vaults, the source logs an
error and executes `return err` — but `err` is the `nil` error of the
succeeded `GetVaultsByTitle` call, so the function returns `nil` (modelled
as `retErr = none`) while creating nothing. -/
def CreateOnPassEntryFromLapsEntry (env : CreateEnv) (lapsEntry : LapsEntry) : CreateOutcome :=
  match env.clientErr with
  | some e => { retErr := some e, created := none, calls := [] }
  | none =>
    match env.vaultsErr with
    | some e => { retErr := some e, created := none, calls := [.getVaultsByTitle env.vaultTitle] }
    | none =>
      match env.vaults with
      | [] => { retErr := none, created := none, calls := [.getVaultsByTitle env.vaultTitle] }
      | vault :: [] =>
        let opitem := newCreatedItem env lapsEntry vault.id
        match env.createErr with
        | some e =>
          { retErr := some e, created := none,
            calls := [.getVaultsByTitle env.vaultTitle, .createItem opitem vault.id] }
        | none =>
          { retErr := none, created := some opitem,
            calls := [.getVaultsByTitle env.vaultTitle, .createItem opitem vault.id] }
      | _ :: _ :: _ => { retErr := none, created := none, calls := [.getVaultsByTitle env.vaultTitle] }

/-! ## UpdateOnPassEntry (src/main.go:363-392) -/

/-- Oracle for one invocation of `UpdateOnPassEntry`: client construction,
`time.Now().String()`, and the error returned by `client.UpdateItem`. -/
structure UpdateEnv where
  clientErr : Option String
  now : String
  updateErr : Option String

/-- How an invocation of `UpdateOnPassEntry` ends: a Go return value
(`ret none` is a `nil` error), a Go runtime index-out-of-range panic at
`Fields[idx]`, or the explicit `log.Panicf` integrity-fault panic. -/
inductive UpdateResult where
  | ret (e : Option String)
  | oobPanic (idx : Nat)
  | integrityPanic (msg : String)
deriving DecidableEq

/-- Result of `UpdateOnPassEntry`: how it ended, the entry's field objects
as left in memory (the caller observes them through the shared
`Fields []*ItemField` pointers), and the trace of store calls issued. -/
structure UpdateOutcome where
  result : UpdateResult
  entry : Item
  calls : List StoreCall
deriving DecidableEq

/-- Replace the element at position `i`, when it exists, by its image
under `f`. -/
def modifyAt {α : Type} (i : Nat) (f : α → α) : List α → List α
  | [] => []
  | x :: xs =>
    match i with
    | 0 => f x :: xs
    | n + 1 => x :: modifyAt n f xs

/-- The Go assignment `entry.Fields[i].Value = v`: overwrite the value of
the field object at position `i` in place. -/
def setFieldValue (it : Item) (i : Nat) (v : String) : Item :=
  { it with fields := modifyAt i (fun f => { f with value := v }) it.fields }

/-- `UpdateOnPassEntry` (src/main.go:363-392).  The source reads
`Fields[1]` and `Fields[2]` without a length guard (a short slice is a
runtime out-of-range panic, in source order: `Fields[1]` is evaluated
before its purpose check, `Fields[2]` only after field 1 was overwritten).
If `Fields[1].Purpose` is `"PASSWORD"` its value is overwritten with the
record's password, else `log.Panicf` aborts; then if `Fields[2].Purpose`
is `"NOTES"` its value is overwritten with an update marker, else
`log.Panicf` aborts.  Finally `client.UpdateItem(&onepassentry, ...)` is
called with its return value discarded — the `err` tested on the next
line is still the `nil` from `NewClientFromEnvironment`, so a failing
update call is not surfaced and the function returns `nil`. -/
def UpdateOnPassEntry (env : UpdateEnv) (onepassentry : Item) (lapsEntry : LapsEntry) : UpdateOutcome :=
  match env.clientErr with
  | some e => { result := .ret (some e), entry := onepassentry, calls := [] }
  | none =>
    match onepassentry.fields.get? 1 with
    | none => { result := .oobPanic 1, entry := onepassentry, calls := [] }
    | some f1 =>
      if f1.purpose = "PASSWORD" then
        let entry1 := setFieldValue onepassentry 1 lapsEntry.password
        match entry1.fields.get? 2 with
        | none => { result := .oobPanic 2, entry := entry1, calls := [] }
        | some f2 =>
          if f2.purpose = "NOTES" then
            let entry2 := setFieldValue entry1 2 ("Updated by laps2onepassword on " ++ env.now)
            { result := .ret none, entry := entry2,
              calls := [.updateItem entry2 entry2.vaultID] }
          else
            { result := .integrityPanic ("UpdateOnPassEntry: Fields[2] purpose is not NOTES on " ++ onepassentry.title),
              entry := entry1, calls := [] }
      else
        { result := .integrityPanic ("UpdateOnPassEntry: Fields[1] purpose is not PASSWORD on " ++ onepassentry.title),
          entry := onepassentry, calls := [] }

/-! ## CompareLapsToOnepass (src/main.go:262-299) -/

/-- The inner loop of `CompareLapsToOnepass` (src/main.go:269-275):
linear-scan the snapshot for the first entry whose title equals the
record's dnshostname, returning its index and the entry. -/
def findTitle (dns : String) : Nat → List Item → Option (Nat × Item)
  | _, [] => none
  | j, it :: rest => if it.title = dns then some (j, it) else findTitle dns (j + 1) rest

/-- One action performed by the pass: the creation of a new item for a
record, or the update (rotation) of the matched snapshot entry at index
`opIdx`. -/
inductive Action where
  | create (rec : LapsEntry)
  | update (opIdx : Nat) (rec : LapsEntry)
deriving DecidableEq

/-- One entry of the pass's action trace: which record (by position in the
input sequence) performed which action.  The trace corresponds to the
calls of `CreateOnPassEntryFromLapsEntry` / `UpdateOnPassEntry` the pass
makes, in order. -/
structure TraceEntry where
  recIdx : Nat
  act : Action
deriving DecidableEq

/-- Per-record oracles for the pass: the environment of the update or
create invocation a record may trigger, indexed by the record's position. -/
structure Oracles where
  updEnv : Nat → UpdateEnv
  creEnv : Nat → CreateEnv

/-- The evolving state of `CompareLapsToOnepass`: the in-memory
`onepassentries` snapshot (updates mutate its entries through the shared
field pointers), the items inserted into the store so far (in creation
order), the action trace, and the `_created_total` / `_updated_total`
counters. -/
structure PassState where
  snapshot : List Item
  createdItems : List Item
  trace : List TraceEntry
  createdCount : Nat
  updatedCount : Nat
deriving DecidableEq

/-- How the pass ends: normal return (`nil`), early return of an error
from a create/update invocation, or a propagated panic. -/
inductive PassResult where
  | ok
  | fail (e : String)
  | oobPanic (idx : Nat)
  | integrityPanic (msg : String)
deriving DecidableEq

/-- The outer loop of `CompareLapsToOnepass` (src/main.go:267-296),
processing the records from position `i` on: look for the first snapshot
entry with matching title; when found, update it if the record's password
differs from `GetValue "password"` of the (possibly already mutated)
matched entry, else do nothing; when not found, create a new item.  An
error returned by an invocation aborts the pass (`return err`), a panic
propagates. -/
def comparePassAux (o : Oracles) : List LapsEntry → Nat → PassState → PassState × PassResult
  | [], _, st => (st, .ok)
  | le :: rest, i, st =>
    match findTitle le.dnshostname 0 st.snapshot with
    | some (j, entry) =>
      if le.password ≠ entry.GetValue "password" then
        let u := UpdateOnPassEntry (o.updEnv i) entry le
        let st1 : PassState :=
          { st with snapshot := st.snapshot.set j u.entry
                    trace := st.trace ++ [⟨i, .update j le⟩] }
        match u.result with
        | .ret (some e) => (st1, .fail e)
        | .ret none =>
          comparePassAux o rest (i + 1) { st1 with updatedCount := st1.updatedCount + 1 }
        | .oobPanic k => (st1, .oobPanic k)
        | .integrityPanic m => (st1, .integrityPanic m)
      else
        comparePassAux o rest (i + 1) st
    | none =>
      let c := CreateOnPassEntryFromLapsEntry (o.creEnv i) le
      let st1 : PassState :=
        { st with
            createdItems := st.createdItems ++ (match c.created with
              | some it => [it]
              | none => [])
            trace := st.trace ++ [⟨i, .create le⟩] }
      match c.retErr with
      | some e => (st1, .fail e)
      | none => comparePassAux o rest (i + 1) { st1 with createdCount := st1.createdCount + 1 }

/-- `CompareLapsToOnepass` (src/main.go:262-299), started on the two input
collections with empty trace and zero counters. -/
def CompareLapsToOnepass (o : Oracles) (lapsentries : List LapsEntry) (onepassentries : List Item) :
    PassState × PassResult :=
  comparePassAux o lapsentries 0
    { snapshot := onepassentries, createdItems := [], trace := [],
      createdCount := 0, updatedCount := 0 }

/-- The vault contents after a completed pass, as a fresh
`GetOnePassEntries` would list them: the (possibly mutated) original
entries followed by the items the pass created. -/
def appliedVault (st : PassState) : List Item :=
  st.snapshot ++ st.createdItems

/-! ## Concrete fixtures for witnesses and counterexamples -/

/-- An update environment in which the client is constructed successfully
and `UpdateItem` succeeds. -/
def cleanUpdateEnv : UpdateEnv :=
  { clientErr := none, now := "2024-01-01 12:00:00", updateErr := none }

/-- A create environment in which every store call succeeds and the
configured vault title matches exactly one vault. -/
def cleanCreateEnv : CreateEnv :=
  { clientErr := none, vaultsErr := none, vaults := [{ id := "v1", name := "LAPS" }],
    vaultTitle := "LAPS", lapsUsername := "Administrator", itemUUID := "item-uuid",
    userFieldUUID := "field0-uuid", passFieldUUID := "field1-uuid",
    now := "2024-01-01 12:00:00", createErr := none }

/-- Oracles under which every create and update invocation succeeds. -/
def cleanOracles : Oracles :=
  { updEnv := fun _ => cleanUpdateEnv, creEnv := fun _ => cleanCreateEnv }

/-- Oracles whose update invocations all hit a failing `UpdateItem` call
(`updateErr` set), while everything else succeeds. -/
def failingUpdateOracles : Oracles :=
  { updEnv := fun _ => { clientErr := none, now := "2024-01-01 12:00:00",
                         updateErr := some "transport error" },
    creEnv := fun _ => cleanCreateEnv }

/-- A LAPS record for host PC01.domain with password `"abc"`. -/
def recPC01 : LapsEntry :=
  { name := "PC01", dnshostname := "PC01.domain", password := "abc", expiration := 0 }

/-- A LAPS record for host PC02.domain with password `"xyz"`. -/
def recPC02 : LapsEntry :=
  { name := "PC02", dnshostname := "PC02.domain", password := "xyz", expiration := 0 }

/-- A vault entry for PC01.domain shaped like an item fetched from a real
vault: the built-in password field carries the lowercase label
`"password"`, purpose `"PASSWORD"`, stored value `"oldpw"`. -/
def entryPC01 : Item :=
  { id := "i1", category := "LOGIN", title := "PC01.domain", vaultID := "v1",
    fields :=
      [ { id := "f0", typ := "STRING", purpose := "USERNAME",
          label := "username", value := "Administrator" },
        { id := "f1", typ := "STRING", purpose := "PASSWORD",
          label := "password", value := "oldpw" },
        { id := "notesPlain", typ := "STRING", purpose := "NOTES",
          label := "notesPlain", value := "" } ] }

/-- Like `entryPC01` but for PC02.domain with stored value `"old2"`. -/
def entryPC02 : Item :=
  { id := "i2", category := "LOGIN", title := "PC02.domain", vaultID := "v1",
    fields :=
      [ { id := "g0", typ := "STRING", purpose := "USERNAME",
          label := "username", value := "Administrator" },
        { id := "g1", typ := "STRING", purpose := "PASSWORD",
          label := "password", value := "old2" },
        { id := "notesPlain", typ := "STRING", purpose := "NOTES",
          label := "notesPlain", value := "" } ] }

/-- A vault entry for PC01.domain whose purpose-PASSWORD slot (index 1)
carries the capitalised label `"Password"` — as the create path of this
very program writes it — and stores exactly the record's password
`"abc"`. -/
def entryCapitalLabel : Item :=
  { id := "i3", category := "LOGIN", title := "PC01.domain", vaultID := "v1",
    fields :=
      [ { id := "h0", typ := "STRING", purpose := "USERNAME",
          label := "Username", value := "Administrator" },
        { id := "h1", typ := "STRING", purpose := "PASSWORD",
          label := "Password", value := "abc" },
        { id := "notesPlain", typ := "STRING", purpose := "NOTES",
          label := "notesPlain", value := "" } ] }

/-- A vault entry whose field at index 1 has purpose `"PASSWORD"` but
whose field at index 2 has purpose `"USERNAME"` instead of `"NOTES"`. -/
def entryBadNotes : Item :=
  { id := "i4", category := "LOGIN", title := "PC01.domain", vaultID := "v1",
    fields :=
      [ { id := "k0", typ := "STRING", purpose := "USERNAME",
          label := "username", value := "Administrator" },
        { id := "k1", typ := "STRING", purpose := "PASSWORD",
          label := "password", value := "oldpw" },
        { id := "k2", typ := "STRING", purpose := "USERNAME",
          label := "second-user", value := "guest" } ] }

/-- A vault entry with only two fields, the one at index 1 having purpose
`"USERNAME"` instead of `"PASSWORD"`. -/
def entryTwoFields : Item :=
  { id := "i5", category := "LOGIN", title := "PC01.domain", vaultID := "v1",
    fields :=
      [ { id := "m0", typ := "STRING", purpose := "USERNAME",
          label := "username", value := "Administrator" },
        { id := "m1", typ := "STRING", purpose := "USERNAME",
          label := "second-user", value := "guest" } ] }

/-- A read environment whose vault lookup succeeds but matches no vault. -/
def emptyVaultReadEnv : ReadEnv :=
  { clientErr := none, vaultsErr := none, vaults := [], vaultTitle := "LAPS",
    listErr := none, listItems := [], itemErr := fun _ => none,
    fullItem := fun _ => entryPC01 }

/-- A read environment whose vault lookup matches two vaults. -/
def dupVaultReadEnv : ReadEnv :=
  { clientErr := none, vaultsErr := none,
    vaults := [{ id := "v1", name := "LAPS" }, { id := "v2", name := "LAPS" }],
    vaultTitle := "LAPS", listErr := none, listItems := [],
    itemErr := fun _ => none, fullItem := fun _ => entryPC01 }

/-- A create environment whose vault lookup succeeds but matches no
vault. -/
def emptyVaultCreateEnv : CreateEnv :=
  { cleanCreateEnv with vaults := [] }

/-- A create environment whose vault lookup matches two vaults. -/
def dupVaultCreateEnv : CreateEnv :=
  { cleanCreateEnv with
      vaults := [{ id := "v1", name := "LAPS" }, { id := "v2", name := "LAPS" }] }

/-! ## Theorems: the FILETIME decoder -/

/-- `int64wrap` is the identity on values already inside the `int64`
range. -/
theorem int64wrap_eq_self {x : Int} (h1 : int64Min ≤ x) (h2 : x ≤ int64Max) :
    int64wrap x = x := by
  simp only [int64wrap, int64Min, int64Max] at *
  omega

/-- For a non-negative remaining tick count within `int64`, the chunking
loop adds exactly `input * 100` nanoseconds to the accumulated time. -/
theorem filetimeLoop_nonneg (n t : Int) (h0 : 0 ≤ n) (h1 : n ≤ int64Max) :
    filetimeLoop n t = t + n * 100 := by
  rw [filetimeLoop]
  by_cases h : maxdUnits < n
  · rw [dif_pos h]
    rw [filetimeLoop_nonneg (n - maxdUnits) (t + maxd)
        (by simp only [maxdUnits, maxd] at *; omega)
        (by simp only [maxdUnits, maxd, int64Max] at *; omega)]
    simp only [maxdUnits, maxd]
    ring_nf
  · rw [dif_neg h]
    by_cases h2 : n = 0
    · simp [h2]
    · rw [if_neg h2]
      have hw : int64wrap (n * 100) = n * 100 := by
        apply int64wrap_eq_self <;>
          (simp only [int64Min, int64Max, maxdUnits, maxd] at *; omega)
      rw [hw]
termination_by n.toNat
decreasing_by
  simp only [maxdUnits, maxd] at *
  omega

/-- C3: for every tick count `0 ≤ n` representable in `int64`,
`getTimeFromFiletime n` is exactly the 1601-01-01 UTC epoch plus
`n * 100` nanoseconds computed in arbitrary precision (the chunked decode
loses nothing to overflow); `getTimeFromFiletime 0` is the epoch itself,
and the function is monotonically non-decreasing in `n`. -/
theorem getTimeFromFiletime_exact (n : Int) (h0 : 0 ≤ n) (h1 : n ≤ int64Max) :
    getTimeFromFiletime n = epoch1601 + n * 100 ∧
    getTimeFromFiletime 0 = epoch1601 ∧
    ∀ m : Int, 0 ≤ m → m ≤ n → getTimeFromFiletime m ≤ getTimeFromFiletime n := by
  refine ⟨filetimeLoop_nonneg n epoch1601 h0 h1, ?_, ?_⟩
  · have h := filetimeLoop_nonneg 0 epoch1601 le_rfl (by simp only [int64Max]; omega)
    simpa [getTimeFromFiletime] using h
  · intro m hm0 hmn
    rw [getTimeFromFiletime, getTimeFromFiletime,
        filetimeLoop_nonneg m epoch1601 hm0 (hmn.trans h1),
        filetimeLoop_nonneg n epoch1601 h0 h1]
    omega

/-- Witness for C3 at a tick count requiring three chunk additions. -/
theorem getTimeFromFiletime_exact_witness :
    getTimeFromFiletime 200000000000000000 = epoch1601 + 200000000000000000 * 100 :=
  (getTimeFromFiletime_exact 200000000000000000 (by norm_num)
    (by simp only [int64Max]; norm_num)).1

/-- C10 counterexample: at `math.MinInt64` the concluding multiplication
`input * 100` overflows `int64` to exactly `0`, so the decoder returns the
1601 epoch itself — not an instant strictly before it, as the claim states
for every negative input. -/
theorem getTimeFromFiletime_minInt64_at_epoch :
    getTimeFromFiletime int64Min = epoch1601 ∧
    ¬ getTimeFromFiletime int64Min < epoch1601 := by
  have h : getTimeFromFiletime int64Min = epoch1601 := by
    rw [getTimeFromFiletime, filetimeLoop,
        dif_neg (by simp only [maxdUnits, maxd, int64Min]; omega),
        if_neg (by simp only [int64Min]; omega)]
    simp only [int64Min, int64wrap, epoch1601]
    norm_num
  exact ⟨h, by rw [h]; exact lt_irrefl _⟩

/-- C10 (amended): `getTimeFromFiletime` is total on the whole `int64`
range with the closed form `epoch + n*100` for `0 ≤ n` and
`epoch + int64wrap (n*100)` for `n < 0` (for `n ≤ 0` the chunking loop
body never executes); the result is strictly before the epoch for
negative `n` only on the overflow-free range `-maxdUnits ≤ n`. -/
theorem getTimeFromFiletime_closed (n : Int) (hlo : int64Min ≤ n) (hhi : n ≤ int64Max) :
    getTimeFromFiletime n = epoch1601 + (if 0 ≤ n then n * 100 else int64wrap (n * 100)) ∧
    (n < 0 → -maxdUnits ≤ n → getTimeFromFiletime n < epoch1601) := by
  constructor
  · by_cases h0 : 0 ≤ n
    · rw [if_pos h0]
      exact filetimeLoop_nonneg n epoch1601 h0 hhi
    · rw [if_neg h0, getTimeFromFiletime, filetimeLoop,
          dif_neg (by simp only [maxdUnits, maxd]; omega),
          if_neg (by omega)]
  · intro hneg hbound
    rw [getTimeFromFiletime, filetimeLoop,
        dif_neg (by simp only [maxdUnits, maxd]; omega),
        if_neg (by omega)]
    have hw : int64wrap (n * 100) = n * 100 := by
      apply int64wrap_eq_self <;>
        (simp only [int64Min, int64Max, maxdUnits, maxd] at *; omega)
    rw [hw]
    simp only [epoch1601]
    omega

/-- Witness for the amended C10 at the negative input `-5`. -/
theorem getTimeFromFiletime_closed_witness :
    getTimeFromFiletime (-5) = epoch1601 + int64wrap (-5 * 100) ∧
    getTimeFromFiletime (-5) < epoch1601 := by
  have h := getTimeFromFiletime_closed (-5)
    (by simp only [int64Min]; omega) (by simp only [int64Max]; omega)
  refine ⟨?_, h.2 (by omega) (by simp only [maxdUnits, maxd]; omega)⟩
  have h1 := h.1
  rwa [if_neg (by omega)] at h1

/-! ## List and scan lemmas -/

/-- An element located by `get?` is a member of the list. -/
theorem mem_of_get? {α : Type} : ∀ (l : List α) (j : Nat) (x : α),
    l.get? j = some x → x ∈ l
  | [], _, _, h => by simp [List.get?] at h
  | a :: l, 0, x, h => by
    injection h with h
    exact h ▸ List.mem_cons_self a l
  | a :: l, j + 1, x, h => by
    simp only [List.get?] at h
    exact List.mem_cons_of_mem a (mem_of_get? l j x h)

/-- `List.set` at one position leaves every other position unchanged. -/
theorem get?_set_ne {α : Type} (x : α) : ∀ (l : List α) (m j : Nat),
    m ≠ j → (l.set m x).get? j = l.get? j
  | [], _, _, _ => by simp
  | a :: l, 0, 0, h => absurd rfl h
  | a :: l, 0, j + 1, _ => rfl
  | a :: l, m + 1, 0, _ => rfl
  | a :: l, m + 1, j + 1, h => by
    simp only [List.set, List.get?]
    exact get?_set_ne x l m j (fun hh => h (by rw [hh]))

/-- Replacing a list element by one with the same image under `f` leaves
the mapped list unchanged. -/
theorem map_set_eq_of_get? {α β : Type} (f : α → β) : ∀ (l : List α) (j : Nat) (x y : α),
    l.get? j = some y → f x = f y → (l.set j x).map f = l.map f
  | [], j, x, y, h, _ => by simp [List.get?] at h
  | a :: l, 0, x, y, h, hf => by
    injection h with h
    subst h
    simp [List.set, hf]
  | a :: l, j + 1, x, y, h, hf => by
    simp only [List.get?] at h
    simp only [List.set, List.map]
    rw [map_set_eq_of_get? f l j x y h hf]

/-- A filter whose predicate fails on every element is empty. -/
theorem filter_eq_nil_of {α : Type} (p : α → Bool) : ∀ (l : List α),
    (∀ a ∈ l, p a = false) → l.filter p = []
  | [], _ => rfl
  | a :: l, h => by
    simp only [List.filter, h a (List.mem_cons_self a l)]
    exact filter_eq_nil_of p l (fun b hb => h b (List.mem_cons_of_mem a hb))

/-- Filtering a cons whose head satisfies the predicate keeps the head. -/
theorem filter_cons_true {α : Type} (p : α → Bool) (a : α) (l : List α) (h : p a = true) :
    (a :: l).filter p = a :: l.filter p := by
  simp [List.filter, h]

/-- Filtering a cons whose head fails the predicate drops the head. -/
theorem filter_cons_false {α : Type} (p : α → Bool) (a : α) (l : List α) (h : p a = false) :
    (a :: l).filter p = l.filter p := by
  simp [List.filter, h]

/-- The scan from start index `j0` is the scan from `0` with every
returned index shifted by `j0`. -/
theorem findTitle_shift (dns : String) : ∀ (l : List Item) (j0 : Nat),
    findTitle dns j0 l = (findTitle dns 0 l).map (fun p => (j0 + p.1, p.2))
  | [], _ => rfl
  | it :: rest, j0 => by
    simp only [findTitle]
    by_cases h : it.title = dns
    · simp [h]
    · rw [if_neg h, if_neg h, findTitle_shift dns rest (j0 + 1), findTitle_shift dns rest 1]
      cases findTitle dns 0 rest with
      | none => rfl
      | some p =>
        simp only [Option.map_some']
        rw [Nat.add_assoc]

/-- The scan returns nothing exactly when no entry carries the title. -/
theorem findTitle_none_iff (dns : String) : ∀ (l : List Item) (j0 : Nat),
    (findTitle dns j0 l = none ↔ ∀ e ∈ l, e.title ≠ dns)
  | [], j0 => by simp [findTitle]
  | it :: rest, j0 => by
    simp only [findTitle]
    by_cases h : it.title = dns
    · simp [h]
    · rw [if_neg h, findTitle_none_iff dns rest (j0 + 1)]
      simp [List.mem_cons, h]

/-- What a successful scan from index `0` means: the returned entry sits at
the returned index, carries the title, and no earlier entry does. -/
theorem findTitle_some_spec (dns : String) : ∀ (l : List Item) (j : Nat) (e : Item),
    findTitle dns 0 l = some (j, e) →
    l.get? j = some e ∧ e.title = dns ∧
      ∀ k, k < j → ∀ x, l.get? k = some x → x.title ≠ dns
  | [], j, e, h => by simp [findTitle] at h
  | it :: rest, j, e, h => by
    simp only [findTitle] at h
    by_cases ht : it.title = dns
    · rw [if_pos ht] at h
      injection h with h
      injection h with hj he
      subst he
      subst hj
      exact ⟨rfl, ht, fun k hk => by omega⟩
    · rw [if_neg ht, findTitle_shift dns rest 1] at h
      cases hfr : findTitle dns 0 rest with
      | none => rw [hfr] at h; simp at h
      | some p =>
        obtain ⟨j', e'⟩ := p
        rw [hfr] at h
        simp only [Option.map_some'] at h
        injection h with h
        injection h with hj he
        subst he
        obtain ⟨hg, hti, hfirst⟩ := findTitle_some_spec dns rest j' e' hfr
        have hj' : j = j' + 1 := by omega
        subst hj'
        refine ⟨by simpa [List.get?] using hg, hti, ?_⟩
        intro k hk x hx
        match k with
        | 0 =>
          injection hx with hx
          subst hx
          exact ht
        | k'' + 1 =>
          simp only [List.get?] at hx
          exact hfirst k'' (by omega) x hx

/-- Replacing an entry that does not carry the scanned title by another
entry that does not carry it leaves the scan unchanged. -/
theorem findTitle_set_ne (dns : String) (x : Item) :
    ∀ (l : List Item) (m : Nat) (y : Item) (j0 : Nat),
    l.get? m = some y → y.title ≠ dns → x.title ≠ dns →
    findTitle dns j0 (l.set m x) = findTitle dns j0 l
  | [], m, y, j0, h, _, _ => by simp [List.get?] at h
  | a :: l, 0, y, j0, h, hy, hx => by
    injection h with h
    subst h
    simp only [List.set, findTitle]
    rw [if_neg hx, if_neg hy]
  | a :: l, m + 1, y, j0, h, hy, hx => by
    simp only [List.get?] at h
    simp only [List.set, findTitle]
    by_cases ha : a.title = dns
    · rw [if_pos ha, if_pos ha]
    · rw [if_neg ha, if_neg ha]
      exact findTitle_set_ne dns x l m y (j0 + 1) h hy hx

/-- `setFieldValue` only touches the fields, never the title. -/
theorem setFieldValue_title (it : Item) (i : Nat) (v : String) :
    (setFieldValue it i v).title = it.title := rfl

/-- `UpdateOnPassEntry` never changes the entry's title: the in-memory
mutations overwrite field values only. -/
theorem UpdateOnPassEntry_title (env : UpdateEnv) (e : Item) (le : LapsEntry) :
    (UpdateOnPassEntry env e le).entry.title = e.title := by
  rw [UpdateOnPassEntry]
  cases env.clientErr with
  | some err => rfl
  | none =>
    cases e.fields.get? 1 with
    | none => rfl
    | some f1 =>
      by_cases h1 : f1.purpose = "PASSWORD"
      · simp only [if_pos h1]
        cases (setFieldValue e 1 le.password).fields.get? 2 with
        | none => rfl
        | some f2 =>
          by_cases h2 : f2.purpose = "NOTES"
          · simp only [if_pos h2]
            rfl
          · simp only [if_neg h2]
            rfl
      · simp only [if_neg h1]

/-! ## Run-level lemmas about the pass -/

/-- The pass never changes the titles (nor length) of the snapshot: an
update replaces the matched entry by one with the same title, a create
touches only the external store. -/
theorem comparePassAux_titles (o : Oracles) :
    ∀ (les : List LapsEntry) (i : Nat) (st st' : PassState) (res : PassResult),
    comparePassAux o les i st = (st', res) →
    st'.snapshot.map (fun it => it.title) = st.snapshot.map (fun it => it.title)
  | [], i, st, st', res, h => by
    rw [comparePassAux] at h
    injection h with h1 h2
    subst h1
    rfl
  | le :: rest, i, st, st', res, h => by
    rw [comparePassAux] at h
    simp only [] at h
    split at h
    next j entry hfind =>
      obtain ⟨hget, htitle, -⟩ := findTitle_some_spec le.dnshostname st.snapshot j entry hfind
      have hmap :
          (st.snapshot.set j (UpdateOnPassEntry (o.updEnv i) entry le).entry).map
              (fun it => it.title) =
            st.snapshot.map (fun it => it.title) :=
        map_set_eq_of_get? (fun it => it.title) st.snapshot j _ entry hget
          (UpdateOnPassEntry_title (o.updEnv i) entry le)
      split at h
      · split at h
        · injection h with h1 h2
          subst h1
          exact hmap
        · have hrec := comparePassAux_titles o rest (i + 1) _ st' res h
          rw [hrec]
          exact hmap
        · injection h with h1 h2
          subst h1
          exact hmap
        · injection h with h1 h2
          subst h1
          exact hmap
      · exact comparePassAux_titles o rest (i + 1) st st' res h
    next hfind =>
      split at h
      · injection h with h1 h2
        subst h1
        rfl
      · have hrec := comparePassAux_titles o rest (i + 1) _ st' res h
        exact hrec

/-- Frame property of the pass: the trace only grows, and every snapshot
position that no update action of the final trace references still holds
the exact entry (all field objects included) it held before. -/
theorem comparePassAux_frame (o : Oracles) :
    ∀ (les : List LapsEntry) (i : Nat) (st st' : PassState) (res : PassResult),
    comparePassAux o les i st = (st', res) →
    (∃ tl, st'.trace = st.trace ++ tl) ∧
    ∀ j, (∀ te ∈ st'.trace, ∀ r, te.act ≠ .update j r) →
      st'.snapshot.get? j = st.snapshot.get? j
  | [], i, st, st', res, h => by
    rw [comparePassAux] at h
    injection h with h1 h2
    subst h1
    exact ⟨⟨[], by simp⟩, fun j _ => rfl⟩
  | le :: rest, i, st, st', res, h => by
    rw [comparePassAux] at h
    simp only [] at h
    split at h
    next j' entry hfind =>
      split at h
      · -- update branch
        have hmem1 :
            (⟨i, .update j' le⟩ : TraceEntry) ∈
              st.trace ++ [(⟨i, .update j' le⟩ : TraceEntry)] :=
          List.mem_append_right _ (List.mem_cons_self _ _)
        split at h
        · injection h with h1 h2
          subst h1
          refine ⟨⟨[⟨i, .update j' le⟩], rfl⟩, fun j hyp => ?_⟩
          have hne := hyp _ hmem1 le
          exact get?_set_ne _ st.snapshot j' j (fun hh => hne (by rw [hh]))
        · obtain ⟨⟨tl2, htl2⟩, hframe⟩ := comparePassAux_frame o rest (i + 1) _ st' res h
          constructor
          · exact ⟨[⟨i, .update j' le⟩] ++ tl2, by
              rw [htl2]
              simp⟩
          · intro j hyp
            have hmem : (⟨i, .update j' le⟩ : TraceEntry) ∈ st'.trace := by
              rw [htl2]
              exact List.mem_append_left _ hmem1
            have hne := hyp _ hmem le
            have hstep := hframe j hyp
            rw [hstep]
            exact get?_set_ne _ st.snapshot j' j (fun hh => hne (by rw [hh]))
        · injection h with h1 h2
          subst h1
          refine ⟨⟨[⟨i, .update j' le⟩], rfl⟩, fun j hyp => ?_⟩
          have hne := hyp _ hmem1 le
          exact get?_set_ne _ st.snapshot j' j (fun hh => hne (by rw [hh]))
        · injection h with h1 h2
          subst h1
          refine ⟨⟨[⟨i, .update j' le⟩], rfl⟩, fun j hyp => ?_⟩
          have hne := hyp _ hmem1 le
          exact get?_set_ne _ st.snapshot j' j (fun hh => hne (by rw [hh]))
      · -- matched with equal password: no action
        exact comparePassAux_frame o rest (i + 1) st st' res h
    next hfind =>
      split at h
      · injection h with h1 h2
        subst h1
        exact ⟨⟨[⟨i, .create le⟩], rfl⟩, fun j _ => rfl⟩
      · obtain ⟨⟨tl2, htl2⟩, hframe⟩ := comparePassAux_frame o rest (i + 1) _ st' res h
        constructor
        · exact ⟨[⟨i, .create le⟩] ++ tl2, by
            rw [htl2]
            simp⟩
        · intro j hyp
          exact hframe j hyp

/-- Characterization of a completed (no error returned, no panic) run of
the pass, processing the records from position `i` on: the new part of the
trace is strictly ordered by record position and bounded by the processed
range; a record whose dnshostname occurs on no snapshot title contributes
exactly one create action and nothing else; a record whose dnshostname
first matches the snapshot at position `j` — and that no earlier processed
record's dnshostname duplicates — contributes exactly one update action
referencing `j` when its password differs from `GetValue "password"` of
the matched entry, and no action at all when the two agree. -/
theorem comparePassAux_ok_spec (o : Oracles) :
    ∀ (les : List LapsEntry) (i : Nat) (st st' : PassState),
    comparePassAux o les i st = (st', .ok) →
    ∃ tl, st'.trace = st.trace ++ tl
      ∧ (∀ te ∈ tl, i ≤ te.recIdx ∧ te.recIdx < i + les.length)
      ∧ List.Pairwise (fun a b => a.recIdx < b.recIdx) tl
      ∧ (∀ (k : Nat) (r : LapsEntry), les.get? k = some r →
          r.dnshostname ∉ st.snapshot.map (fun it => it.title) →
          tl.filter (fun te => te.recIdx == i + k) = [⟨i + k, .create r⟩])
      ∧ (∀ (k : Nat) (r : LapsEntry) (j : Nat) (e : Item), les.get? k = some r →
          (∀ (k' : Nat) (r' : LapsEntry), k' < k → les.get? k' = some r' →
            r'.dnshostname ≠ r.dnshostname) →
          findTitle r.dnshostname 0 st.snapshot = some (j, e) →
          tl.filter (fun te => te.recIdx == i + k) =
            if r.password ≠ e.GetValue "password"
            then [⟨i + k, .update j r⟩] else [])
  | [], i, st, st', h => by
    rw [comparePassAux] at h
    injection h with h1 h2
    subst h1
    refine ⟨[], by simp, by simp, List.Pairwise.nil, ?_, ?_⟩
    · intro k r hr
      simp [List.get?] at hr
    · intro k r j e hr
      simp [List.get?] at hr
  | le :: rest, i, st, st', h => by
    rw [comparePassAux] at h
    simp only [] at h
    split at h
    next j' entry hfind =>
      obtain ⟨hget, htitle, hfirst⟩ :=
        findTitle_some_spec le.dnshostname st.snapshot j' entry hfind
      have hdnsmem : le.dnshostname ∈ st.snapshot.map (fun it => it.title) :=
        List.mem_map.mpr ⟨entry, mem_of_get? st.snapshot j' entry hget, htitle⟩
      split at h
      next hne =>
        -- update attempted
        split at h
        next e0 heq0 => exact absurd (congrArg Prod.snd h) (by simp)
        next heq0 =>
          obtain ⟨tl2, htr, hbounds, hpair, hcreate, hupdate⟩ :=
            comparePassAux_ok_spec o rest (i + 1) _ st' h
          have htr' : st'.trace =
              (st.trace ++ [⟨i, .update j' le⟩]) ++ tl2 := htr
          have hmap :
              ((st.snapshot.set j' (UpdateOnPassEntry (o.updEnv i) entry le).entry).map
                (fun it => it.title)) = st.snapshot.map (fun it => it.title) :=
            map_set_eq_of_get? (fun it => it.title) st.snapshot j' _ entry hget
              (UpdateOnPassEntry_title (o.updEnv i) entry le)
          have hcreate' : ∀ (k : Nat) (r : LapsEntry), rest.get? k = some r →
              r.dnshostname ∉
                (st.snapshot.set j' (UpdateOnPassEntry (o.updEnv i) entry le).entry).map
                  (fun it => it.title) →
              tl2.filter (fun te => te.recIdx == (i + 1) + k) = [⟨(i + 1) + k, .create r⟩] :=
            hcreate
          have hupdate' : ∀ (k : Nat) (r : LapsEntry) (j : Nat) (e : Item),
              rest.get? k = some r →
              (∀ (k' : Nat) (r' : LapsEntry), k' < k → rest.get? k' = some r' →
                r'.dnshostname ≠ r.dnshostname) →
              findTitle r.dnshostname 0
                  (st.snapshot.set j' (UpdateOnPassEntry (o.updEnv i) entry le).entry) =
                some (j, e) →
              tl2.filter (fun te => te.recIdx == (i + 1) + k) =
                if r.password ≠ e.GetValue "password"
                then [⟨(i + 1) + k, .update j r⟩] else [] :=
            hupdate
          refine ⟨⟨i, .update j' le⟩ :: tl2, by rw [htr']; simp, ?_, ?_, ?_, ?_⟩
          · intro te hte
            rcases List.mem_cons.mp hte with hte | hte
            · subst hte
              simp only [List.length_cons]
              omega
            · have := hbounds te hte
              simp only [List.length_cons]
              omega
          · refine List.Pairwise.cons ?_ hpair
            intro b hb
            have := hbounds b hb
            simp only []
            omega
          · intro k r hr hnotin
            match k with
            | 0 =>
              injection hr with hr
              subst hr
              exact absurd hdnsmem hnotin
            | k'' + 1 =>
              simp only [List.get?] at hr
              have hidx : i + (k'' + 1) = (i + 1) + k'' := by omega
              have hx : ((⟨i, .update j' le⟩ : TraceEntry).recIdx == i + (k'' + 1)) = false := by
                simp only [beq_eq_false_iff_ne]
                omega
              rw [filter_cons_false (fun te => te.recIdx == i + (k'' + 1)) ⟨i, Action.update j' le⟩ tl2 hx, hidx]
              exact hcreate' k'' r hr (by rw [hmap]; exact hnotin)
          · intro k r j e hr hdup hfind2
            match k with
            | 0 =>
              injection hr with hr
              subst hr
              rw [hfind] at hfind2
              injection hfind2 with hfind2
              injection hfind2 with hj he
              subst hj
              subst he
              have hx : ((⟨i, .update j' le⟩ : TraceEntry).recIdx == i + 0) = true := by
                simp
              rw [filter_cons_true (fun te => te.recIdx == i + 0) ⟨i, Action.update j' le⟩ tl2 hx, if_pos hne]
              have hnil : tl2.filter (fun te => te.recIdx == i + 0) = [] := by
                apply filter_eq_nil_of
                intro a ha
                have := hbounds a ha
                simp only [beq_eq_false_iff_ne]
                omega
              rw [hnil]
              simp
            | k'' + 1 =>
              simp only [List.get?] at hr
              have hdns0 : le.dnshostname ≠ r.dnshostname := by
                have := hdup 0 le (by omega) rfl
                exact this
              have hidx : i + (k'' + 1) = (i + 1) + k'' := by omega
              have hx : ((⟨i, .update j' le⟩ : TraceEntry).recIdx == i + (k'' + 1)) = false := by
                simp only [beq_eq_false_iff_ne]
                omega
              rw [filter_cons_false (fun te => te.recIdx == i + (k'' + 1)) ⟨i, Action.update j' le⟩ tl2 hx, hidx]
              have hfind3 : findTitle r.dnshostname 0
                  (st.snapshot.set j' (UpdateOnPassEntry (o.updEnv i) entry le).entry) =
                  some (j, e) := by
                rw [findTitle_set_ne r.dnshostname _ st.snapshot j' entry 0 hget
                  (by rw [htitle]; exact hdns0)
                  (by rw [UpdateOnPassEntry_title, htitle]; exact hdns0)]
                exact hfind2
              refine hupdate' k'' r j e hr ?_ hfind3
              intro k' r' hk' hr'
              exact hdup (k' + 1) r' (by omega) (by simpa [List.get?] using hr')
        next k0 heq0 => exact absurd (congrArg Prod.snd h) (by simp)
        next m0 heq0 => exact absurd (congrArg Prod.snd h) (by simp)
      next hne =>
        -- matched, values equal: no action for this record
        obtain ⟨tl2, htr, hbounds, hpair, hcreate, hupdate⟩ :=
          comparePassAux_ok_spec o rest (i + 1) st st' h
        refine ⟨tl2, htr, ?_, hpair, ?_, ?_⟩
        · intro te hte
          have := hbounds te hte
          simp only [List.length_cons]
          omega
        · intro k r hr hnotin
          match k with
          | 0 =>
            injection hr with hr
            subst hr
            exact absurd hdnsmem hnotin
          | k'' + 1 =>
            simp only [List.get?] at hr
            have hidx : i + (k'' + 1) = (i + 1) + k'' := by omega
            rw [hidx]
            exact hcreate k'' r hr hnotin
        · intro k r j e hr hdup hfind2
          match k with
          | 0 =>
            injection hr with hr
            subst hr
            rw [hfind] at hfind2
            injection hfind2 with hfind2
            injection hfind2 with hj he
            subst hj
            subst he
            rw [if_neg hne]
            apply filter_eq_nil_of
            intro a ha
            have := hbounds a ha
            simp only [beq_eq_false_iff_ne]
            omega
          | k'' + 1 =>
            simp only [List.get?] at hr
            have hidx : i + (k'' + 1) = (i + 1) + k'' := by omega
            rw [hidx]
            refine hupdate k'' r j e hr ?_ hfind2
            intro k' r' hk' hr'
            exact hdup (k' + 1) r' (by omega) (by simpa [List.get?] using hr')
    next hfind =>
      have hnone : ∀ x ∈ st.snapshot, x.title ≠ le.dnshostname :=
        (findTitle_none_iff le.dnshostname st.snapshot 0).mp hfind
      split at h
      next e0 heq0 => exact absurd (congrArg Prod.snd h) (by simp)
      next heq0 =>
        obtain ⟨tl2, htr, hbounds, hpair, hcreate, hupdate⟩ :=
          comparePassAux_ok_spec o rest (i + 1) _ st' h
        have htr' : st'.trace = (st.trace ++ [⟨i, .create le⟩]) ++ tl2 := htr
        have hcreate' : ∀ (k : Nat) (r : LapsEntry), rest.get? k = some r →
            r.dnshostname ∉ st.snapshot.map (fun it => it.title) →
            tl2.filter (fun te => te.recIdx == (i + 1) + k) = [⟨(i + 1) + k, .create r⟩] :=
          hcreate
        have hupdate' : ∀ (k : Nat) (r : LapsEntry) (j : Nat) (e : Item),
            rest.get? k = some r →
            (∀ (k' : Nat) (r' : LapsEntry), k' < k → rest.get? k' = some r' →
              r'.dnshostname ≠ r.dnshostname) →
            findTitle r.dnshostname 0 st.snapshot = some (j, e) →
            tl2.filter (fun te => te.recIdx == (i + 1) + k) =
              if r.password ≠ e.GetValue "password"
              then [⟨(i + 1) + k, .update j r⟩] else [] :=
          hupdate
        refine ⟨⟨i, .create le⟩ :: tl2, by rw [htr']; simp, ?_, ?_, ?_, ?_⟩
        · intro te hte
          rcases List.mem_cons.mp hte with hte | hte
          · subst hte
            simp only [List.length_cons]
            omega
          · have := hbounds te hte
            simp only [List.length_cons]
            omega
        · refine List.Pairwise.cons ?_ hpair
          intro b hb
          have := hbounds b hb
          simp only []
          omega
        · intro k r hr hnotin
          match k with
          | 0 =>
            injection hr with hr
            subst hr
            have hx : ((⟨i, .create le⟩ : TraceEntry).recIdx == i + 0) = true := by
              simp
            rw [filter_cons_true (fun te => te.recIdx == i + 0) ⟨i, Action.create le⟩ tl2 hx]
            have hnil : tl2.filter (fun te => te.recIdx == i + 0) = [] := by
              apply filter_eq_nil_of
              intro a ha
              have := hbounds a ha
              simp only [beq_eq_false_iff_ne]
              omega
            rw [hnil]
            simp
          | k'' + 1 =>
            simp only [List.get?] at hr
            have hidx : i + (k'' + 1) = (i + 1) + k'' := by omega
            have hx : ((⟨i, .create le⟩ : TraceEntry).recIdx == i + (k'' + 1)) = false := by
              simp only [beq_eq_false_iff_ne]
              omega
            rw [filter_cons_false (fun te => te.recIdx == i + (k'' + 1)) ⟨i, Action.create le⟩ tl2 hx, hidx]
            exact hcreate' k'' r hr hnotin
        · intro k r j e hr hdup hfind2
          match k with
          | 0 =>
            injection hr with hr
            subst hr
            obtain ⟨hget2, htitle2, -⟩ :=
              findTitle_some_spec le.dnshostname st.snapshot j e hfind2
            exact absurd htitle2 (hnone e (mem_of_get? st.snapshot j e hget2))
          | k'' + 1 =>
            simp only [List.get?] at hr
            have hidx : i + (k'' + 1) = (i + 1) + k'' := by omega
            have hx : ((⟨i, .create le⟩ : TraceEntry).recIdx == i + (k'' + 1)) = false := by
              simp only [beq_eq_false_iff_ne]
              omega
            rw [filter_cons_false (fun te => te.recIdx == i + (k'' + 1)) ⟨i, Action.create le⟩ tl2 hx, hidx]
            refine hupdate' k'' r j e hr ?_ hfind2
            intro k' r' hk' hr'
            exact hdup (k' + 1) r' (by omega) (by simpa [List.get?] using hr')

/-! ## Further structural lemmas for the update operation -/

/-- `modifyAt` keeps the list length. -/
theorem length_modifyAt {α : Type} (f : α → α) : ∀ (l : List α) (i : Nat),
    (modifyAt i f l).length = l.length
  | [], _ => by simp [modifyAt]
  | _ :: l, 0 => rfl
  | _ :: l, i + 1 => by
    simp only [modifyAt, List.length_cons]
    rw [length_modifyAt f l i]

/-- `modifyAt` leaves every other position unchanged. -/
theorem get?_modifyAt_ne {α : Type} (f : α → α) : ∀ (l : List α) (i j : Nat),
    i ≠ j → (modifyAt i f l).get? j = l.get? j
  | [], _, _, _ => by simp [modifyAt]
  | a :: l, 0, 0, h => absurd rfl h
  | a :: l, 0, j + 1, _ => rfl
  | a :: l, i + 1, 0, _ => rfl
  | a :: l, i + 1, j + 1, h => by
    simp only [modifyAt, List.get?]
    exact get?_modifyAt_ne f l i j (fun hh => h (by rw [hh]))

/-- `get?` misses exactly beyond the length. -/
theorem get?_eq_none_iff {α : Type} : ∀ (l : List α) (n : Nat),
    (l.get? n = none ↔ l.length ≤ n)
  | [], n => by simp
  | a :: l, 0 => by simp
  | a :: l, n + 1 => by
    simp only [List.get?, List.length_cons]
    rw [get?_eq_none_iff l n]
    omega

/-! ## Claim theorems: the reconciliation pass -/

/-- C1: in a completed run of the reconciliation pass, the trace is
strictly increasing in record position (records are processed in input
order), and every LAPS record whose dnshostname equals no title of the
input vault snapshot performs exactly one create action — and no update
action references its position. -/
theorem compare_creates_unmatched (o : Oracles) (records : List LapsEntry)
    (entries : List Item) (st' : PassState)
    (hrun : CompareLapsToOnepass o records entries = (st', .ok)) :
    List.Pairwise (fun a b => a.recIdx < b.recIdx) st'.trace ∧
    ∀ (k : Nat) (r : LapsEntry), records.get? k = some r →
      (∀ e ∈ entries, e.title ≠ r.dnshostname) →
      st'.trace.filter (fun te => te.recIdx == k) = [⟨k, .create r⟩] := by
  obtain ⟨tl, htr, hbounds, hpair, hcreate, -⟩ :=
    comparePassAux_ok_spec o records 0 _ st' hrun
  have htr' : st'.trace = ([] : List TraceEntry) ++ tl := htr
  rw [List.nil_append] at htr'
  constructor
  · rw [htr']
    exact hpair
  · intro k r hr hno
    have hnotin : r.dnshostname ∉ entries.map (fun it => it.title) := by
      intro hmem
      obtain ⟨e, he, heq⟩ := List.mem_map.mp hmem
      exact hno e he heq
    have hfc := hcreate k r hr hnotin
    rw [htr']
    simpa using hfc

/-- Witness for C1: one record, empty vault, one create action at
position 0. -/
theorem compare_creates_unmatched_witness :
    List.Pairwise (fun a b => a.recIdx < b.recIdx)
        (CompareLapsToOnepass cleanOracles [recPC01] []).1.trace ∧
    (CompareLapsToOnepass cleanOracles [recPC01] []).1.trace.filter
        (fun te => te.recIdx == 0) = [⟨0, .create recPC01⟩] := by
  have h := compare_creates_unmatched cleanOracles [recPC01] []
      (CompareLapsToOnepass cleanOracles [recPC01] []).1 rfl
  exact ⟨h.1, h.2 0 recPC01 rfl (fun e he => absurd he (List.not_mem_nil e))⟩

/-- C2 counterexample: the matched entry's purpose-PASSWORD slot (index 1)
stores exactly the record's password, so by the claim no action should be
performed — yet the pass performs an update action, because the code
compares against `GetValue "password"`, a case-sensitive label lookup that
returns `""` on this entry (its password slot is labelled `"Password"`),
not against the password slot's value. -/
theorem compare_update_equal_password_counterexample :
    (entryCapitalLabel.fields.get? 1).map (fun f => (f.purpose, f.value)) =
      some ("PASSWORD", recPC01.password) ∧
    (CompareLapsToOnepass cleanOracles [recPC01] [entryCapitalLabel]).1.trace =
      [⟨0, .update 0 recPC01⟩] := by
  exact ⟨rfl, rfl⟩

/-- C2 (amended): in a completed run, a record whose dnshostname matches
some vault title resolves to the first matching entry in input order and —
provided no earlier record shares its dnshostname — performs exactly one
update action referencing that entry if and only if the record's password
differs from the value `GetValue "password"` yields on the entry (the
value of its first field labelled `"password"`, or `""` when no field
carries that label); when those two values agree, no action is performed
for that record. -/
theorem compare_update_first_match (o : Oracles) (records : List LapsEntry)
    (entries : List Item) (st' : PassState)
    (hrun : CompareLapsToOnepass o records entries = (st', .ok))
    (k : Nat) (r : LapsEntry) (j : Nat) (e : Item)
    (hr : records.get? k = some r)
    (hdup : ∀ (k' : Nat) (r' : LapsEntry), k' < k → records.get? k' = some r' →
      r'.dnshostname ≠ r.dnshostname)
    (hfind : findTitle r.dnshostname 0 entries = some (j, e)) :
    (entries.get? j = some e ∧ e.title = r.dnshostname ∧
      ∀ j' < j, ∀ x, entries.get? j' = some x → x.title ≠ r.dnshostname) ∧
    st'.trace.filter (fun te => te.recIdx == k) =
      (if r.password ≠ e.GetValue "password" then [⟨k, .update j r⟩] else []) := by
  obtain ⟨tl, htr, -, -, -, hupdate⟩ :=
    comparePassAux_ok_spec o records 0 _ st' hrun
  have htr' : st'.trace = ([] : List TraceEntry) ++ tl := htr
  rw [List.nil_append] at htr'
  refine ⟨findTitle_some_spec r.dnshostname entries j e hfind, ?_⟩
  have hfu := hupdate k r j e hr hdup hfind
  rw [htr']
  simpa using hfu

/-- Witness for the amended C2: one record, one matching entry with a
differing stored password, one update action. -/
theorem compare_update_first_match_witness :
    (CompareLapsToOnepass cleanOracles [recPC01] [entryPC01]).1.trace.filter
        (fun te => te.recIdx == 0) = [⟨0, .update 0 recPC01⟩] := by
  have h := compare_update_first_match cleanOracles [recPC01] [entryPC01]
      (CompareLapsToOnepass cleanOracles [recPC01] [entryPC01]).1 rfl
      0 recPC01 0 entryPC01 rfl
      (fun k' r' hk' _ => absurd hk' (Nat.not_lt_zero k')) rfl
  have h2 := h.2
  rwa [if_pos (by decide)] at h2

/-- C4 at the failing input: run the pass on one record against an empty
vault, then run it again against the vault state left by the first run
(the created item exactly as the create path constructs it).  The second
run performs zero create actions but one update action: the created item
labels its password field `"Password"`, while the comparison reads
`GetValue "password"`, which returns `""` ≠ `"abc"`. -/
theorem two_runs_not_idempotent :
    (CompareLapsToOnepass cleanOracles [recPC01] []).2 = .ok ∧
    (CompareLapsToOnepass cleanOracles [recPC01]
        (appliedVault (CompareLapsToOnepass cleanOracles [recPC01] []).1)).2 = .ok ∧
    (CompareLapsToOnepass cleanOracles [recPC01]
        (appliedVault (CompareLapsToOnepass cleanOracles [recPC01] []).1)).1.createdCount = 0 ∧
    (CompareLapsToOnepass cleanOracles [recPC01]
        (appliedVault (CompareLapsToOnepass cleanOracles [recPC01] []).1)).1.updatedCount = 1 ∧
    (CompareLapsToOnepass cleanOracles [recPC01]
        (appliedVault (CompareLapsToOnepass cleanOracles [recPC01] []).1)).1.trace =
      [⟨0, .update 0 recPC01⟩] := by
  exact ⟨rfl, rfl, rfl, rfl, rfl⟩

/-- C5 counterexample: an entry whose field 1 has purpose `"PASSWORD"` but
whose field 2 has purpose `"USERNAME"`.  The update aborts with the
integrity panic and issues no store write — but the entry does not keep
all its field values: field 1's value has already been overwritten with
the record's password by the time of the abort. -/
theorem update_mutates_before_notes_panic :
    (entryBadNotes.fields.get? 1).map (fun f => f.purpose) = some "PASSWORD" ∧
    (entryBadNotes.fields.get? 2).map (fun f => f.purpose) = some "USERNAME" ∧
    (∃ m, (UpdateOnPassEntry cleanUpdateEnv entryBadNotes recPC01).result =
      .integrityPanic m) ∧
    (UpdateOnPassEntry cleanUpdateEnv entryBadNotes recPC01).calls = [] ∧
    (UpdateOnPassEntry cleanUpdateEnv entryBadNotes recPC01).entry ≠ entryBadNotes ∧
    ((UpdateOnPassEntry cleanUpdateEnv entryBadNotes recPC01).entry.fields.get? 1).map
        (fun f => f.value) = some recPC01.password := by
  exact ⟨rfl, rfl, ⟨_, rfl⟩, rfl, by decide, rfl⟩

/-- C5 (amended): an update against a matched entry failing either purpose
check aborts with the integrity-fault panic and issues no store write;
when the check at index 1 fails no field value is mutated, but when index
1 passes and index 2 fails, the field at index 1 has already been
overwritten with the record's password at the moment of the abort. -/
theorem update_integrity_abort (env : UpdateEnv) (entry : Item) (le : LapsEntry)
    (f1 f2 : ItemField)
    (hclient : env.clientErr = none)
    (h1 : entry.fields.get? 1 = some f1)
    (h2 : entry.fields.get? 2 = some f2)
    (hbad : f1.purpose ≠ "PASSWORD" ∨ f2.purpose ≠ "NOTES") :
    (∃ m, (UpdateOnPassEntry env entry le).result = .integrityPanic m) ∧
    (UpdateOnPassEntry env entry le).calls = [] ∧
    (f1.purpose ≠ "PASSWORD" → (UpdateOnPassEntry env entry le).entry = entry) ∧
    (f1.purpose = "PASSWORD" → f2.purpose ≠ "NOTES" →
      (UpdateOnPassEntry env entry le).entry = setFieldValue entry 1 le.password) := by
  have h2' : (setFieldValue entry 1 le.password).fields.get? 2 = some f2 := by
    simp only [setFieldValue]
    rw [get?_modifyAt_ne _ entry.fields 1 2 (by omega)]
    exact h2
  by_cases hp1 : f1.purpose = "PASSWORD"
  · have hp2 : f2.purpose ≠ "NOTES" := by
      rcases hbad with h | h
      · exact absurd hp1 h
      · exact h
    have hE : UpdateOnPassEntry env entry le =
        { result := .integrityPanic
            ("UpdateOnPassEntry: Fields[2] purpose is not NOTES on " ++ entry.title),
          entry := setFieldValue entry 1 le.password, calls := [] } := by
      simp only [UpdateOnPassEntry, hclient, h1, if_pos hp1, h2', if_neg hp2]
    rw [hE]
    exact ⟨⟨_, rfl⟩, rfl, fun hc => absurd hp1 hc, fun _ _ => rfl⟩
  · have hE : UpdateOnPassEntry env entry le =
        { result := .integrityPanic
            ("UpdateOnPassEntry: Fields[1] purpose is not PASSWORD on " ++ entry.title),
          entry := entry, calls := [] } := by
      simp only [UpdateOnPassEntry, hclient, h1, if_neg hp1]
    rw [hE]
    exact ⟨⟨_, rfl⟩, rfl, fun _ => rfl, fun hc => absurd hc hp1⟩

/-- Witness for the amended C5 at `entryBadNotes` (index-1 check passes,
index-2 check fails). -/
theorem update_integrity_abort_witness :
    (∃ m, (UpdateOnPassEntry cleanUpdateEnv entryBadNotes recPC01).result =
      .integrityPanic m) ∧
    (UpdateOnPassEntry cleanUpdateEnv entryBadNotes recPC01).calls = [] ∧
    (UpdateOnPassEntry cleanUpdateEnv entryBadNotes recPC01).entry =
      setFieldValue entryBadNotes 1 recPC01.password := by
  have h := update_integrity_abort cleanUpdateEnv entryBadNotes recPC01
      { id := "k1", typ := "STRING", purpose := "PASSWORD",
        label := "password", value := "oldpw" }
      { id := "k2", typ := "STRING", purpose := "USERNAME",
        label := "second-user", value := "guest" }
      rfl rfl rfl (Or.inr (by decide))
  exact ⟨h.1, h.2.1, h.2.2.2 rfl (by decide)⟩

/-- C6 at the failing input: `client.UpdateItem`'s error is discarded by
the source (`err` tested afterwards is the stale `nil`), so a failing
item-update call is not surfaced: `UpdateOnPassEntry` returns nil while
having issued the write, and the pass continues past the failed write,
performing the next record's update and finishing with `nil` instead of
stopping at the first error. -/
theorem update_error_swallowed :
    (failingUpdateOracles.updEnv 0).updateErr = some "transport error" ∧
    (UpdateOnPassEntry (failingUpdateOracles.updEnv 0) entryPC01 recPC01).result =
      .ret none ∧
    (UpdateOnPassEntry (failingUpdateOracles.updEnv 0) entryPC01 recPC01).calls ≠ [] ∧
    (CompareLapsToOnepass failingUpdateOracles [recPC01, recPC02]
        [entryPC01, entryPC02]).2 = .ok ∧
    (CompareLapsToOnepass failingUpdateOracles [recPC01, recPC02]
        [entryPC01, entryPC02]).1.trace =
      [⟨0, .update 0 recPC01⟩, ⟨1, .update 1 recPC02⟩] := by
  exact ⟨rfl, rfl, by decide, rfl, rfl⟩

/-- C7 counterexample: after a pass performing one update, the input vault
entry no longer holds the values it held on entry — its field objects at
indices 1 and 2 were overwritten in place (the Go `Item` holds
`[]*ItemField`, so the caller's snapshot shares them). -/
theorem compare_mutates_matched_entry :
    (CompareLapsToOnepass cleanOracles [recPC01] [entryPC01]).1.snapshot ≠ [entryPC01] ∧
    (CompareLapsToOnepass cleanOracles [recPC01] [entryPC01]).1.snapshot.map
        (fun it => it.fields.map (fun f => f.value)) =
      [["Administrator", "abc", "Updated by laps2onepassword on 2024-01-01 12:00:00"]] := by
  exact ⟨by decide, rfl⟩

/-- C7 (amended): the pass leaves the LAPS records untouched and preserves
every snapshot title; every vault entry not referenced by an update action
of the trace is returned exactly as it was handed in, field objects
included.  A performed update, however, mutates the matched entry's field
objects in place. -/
theorem compare_frame (o : Oracles) (records : List LapsEntry) (entries : List Item)
    (st' : PassState) (res : PassResult)
    (hrun : CompareLapsToOnepass o records entries = (st', res)) :
    st'.snapshot.map (fun it => it.title) = entries.map (fun it => it.title) ∧
    ∀ j, (∀ te ∈ st'.trace, ∀ r, te.act ≠ .update j r) →
      st'.snapshot.get? j = entries.get? j := by
  have htitles := comparePassAux_titles o records 0 _ st' res hrun
  obtain ⟨-, hframe⟩ := comparePassAux_frame o records 0 _ st' res hrun
  exact ⟨htitles, hframe⟩

/-- Witness for the amended C7: a run that only creates leaves the one
vault entry untouched. -/
theorem compare_frame_witness :
    (CompareLapsToOnepass cleanOracles [recPC02] [entryPC01]).1.snapshot.get? 0 =
      some entryPC01 := by
  have h := compare_frame cleanOracles [recPC02] [entryPC01]
      (CompareLapsToOnepass cleanOracles [recPC02] [entryPC01]).1 .ok rfl
  refine h.2 0 ?_
  intro te hte r
  have htr : (CompareLapsToOnepass cleanOracles [recPC02] [entryPC01]).1.trace =
      [⟨0, .create recPC02⟩] := rfl
  rw [htr] at hte
  rcases List.mem_cons.mp hte with h1 | h1
  · subst h1
    exact fun hcon => Action.noConfusion hcon
  · exact absurd h1 (List.not_mem_nil te)

/-- C8 at the failing input: when the vault lookup matches zero or several
vaults, the read path (`GetOnePassEntries`) returns a non-nil error and
performs no item listing — but the create path
(`CreateOnPassEntryFromLapsEntry`) performs no creation while returning
the stale `nil` error of the succeeded lookup (`return err`), so the
caller cannot see the fault. -/
theorem create_vault_missing_nil_error :
    (∃ e, (GetOnePassEntries emptyVaultReadEnv).1 = .error e) ∧
    (GetOnePassEntries emptyVaultReadEnv).2 = [.getVaultsByTitle "LAPS"] ∧
    (∃ e, (GetOnePassEntries dupVaultReadEnv).1 = .error e) ∧
    (GetOnePassEntries dupVaultReadEnv).2 = [.getVaultsByTitle "LAPS"] ∧
    (CreateOnPassEntryFromLapsEntry emptyVaultCreateEnv recPC01).created = none ∧
    (CreateOnPassEntryFromLapsEntry emptyVaultCreateEnv recPC01).calls =
      [.getVaultsByTitle "LAPS"] ∧
    (CreateOnPassEntryFromLapsEntry emptyVaultCreateEnv recPC01).retErr = none ∧
    (CreateOnPassEntryFromLapsEntry dupVaultCreateEnv recPC01).created = none ∧
    (CreateOnPassEntryFromLapsEntry dupVaultCreateEnv recPC01).retErr = none := by
  exact ⟨⟨_, rfl⟩, rfl, ⟨_, rfl⟩, rfl, rfl, rfl, rfl, rfl, rfl⟩

/-- C9 counterexample: a matched entry with exactly two fields — fewer
than three — whose field 1 has purpose `"USERNAME"`: the update does not
hit an out-of-bounds access but the explicit integrity-fault path, which
fires before the unguarded index-2 read is reached. -/
theorem update_len2_integrity_not_oob :
    entryTwoFields.fields.length = 2 ∧
    (∃ m, (UpdateOnPassEntry cleanUpdateEnv entryTwoFields recPC01).result =
      .integrityPanic m) ∧
    ∀ idx, (UpdateOnPassEntry cleanUpdateEnv entryTwoFields recPC01).result ≠
      .oobPanic idx := by
  refine ⟨rfl, ⟨_, rfl⟩, ?_⟩
  intro idx h
  rw [show (UpdateOnPassEntry cleanUpdateEnv entryTwoFields recPC01).result =
      .integrityPanic
        "UpdateOnPassEntry: Fields[1] purpose is not PASSWORD on PC01.domain"
    from rfl] at h
  exact UpdateResult.noConfusion h

/-- C9 (amended): `UpdateOnPassEntry` reads indices 1 and 2 without a
length guard.  With a successfully constructed client: fewer than two
fields is an out-of-bounds panic at index 1; exactly two fields is an
out-of-bounds panic at index 2 when field 1's purpose is `"PASSWORD"`,
but the explicit integrity-fault path when it is not; with at least three
fields no out-of-bounds access occurs. -/
theorem update_oob_characterization (env : UpdateEnv) (entry : Item) (le : LapsEntry)
    (hclient : env.clientErr = none) :
    (entry.fields.length < 2 → (UpdateOnPassEntry env entry le).result = .oobPanic 1) ∧
    (∀ f1, entry.fields.get? 1 = some f1 → entry.fields.length = 2 →
      f1.purpose = "PASSWORD" → (UpdateOnPassEntry env entry le).result = .oobPanic 2) ∧
    (∀ f1, entry.fields.get? 1 = some f1 → f1.purpose ≠ "PASSWORD" →
      ∃ m, (UpdateOnPassEntry env entry le).result = .integrityPanic m) ∧
    (3 ≤ entry.fields.length →
      ∀ idx, (UpdateOnPassEntry env entry le).result ≠ .oobPanic idx) := by
  refine ⟨?_, ?_, ?_, ?_⟩
  · intro hlen
    have hn : entry.fields.get? 1 = none := (get?_eq_none_iff _ _).mpr (by omega)
    simp only [UpdateOnPassEntry, hclient, hn]
  · intro f1 h1 hlen hp1
    have hn2 : (setFieldValue entry 1 le.password).fields.get? 2 = none := by
      apply (get?_eq_none_iff _ _).mpr
      simp only [setFieldValue]
      rw [length_modifyAt]
      omega
    simp only [UpdateOnPassEntry, hclient, h1, if_pos hp1, hn2]
  · intro f1 h1 hp1
    simp only [UpdateOnPassEntry, hclient, h1, if_neg hp1]
    exact ⟨_, rfl⟩
  · intro hlen idx
    cases h1 : entry.fields.get? 1 with
    | none =>
      have := (get?_eq_none_iff entry.fields 1).mp h1
      omega
    | some f1 =>
      by_cases hp1 : f1.purpose = "PASSWORD"
      · cases h2 : (setFieldValue entry 1 le.password).fields.get? 2 with
        | none =>
          have hlm : (setFieldValue entry 1 le.password).fields.length ≤ 2 := by
            have := (get?_eq_none_iff (setFieldValue entry 1 le.password).fields 2).mp h2
            exact this
          simp only [setFieldValue] at hlm
          rw [length_modifyAt] at hlm
          omega
        | some f2 =>
          by_cases hp2 : f2.purpose = "NOTES"
          · simp only [UpdateOnPassEntry, hclient, h1, if_pos hp1, h2, if_pos hp2]
            exact fun hcon => UpdateResult.noConfusion hcon
          · simp only [UpdateOnPassEntry, hclient, h1, if_pos hp1, h2, if_neg hp2]
            exact fun hcon => UpdateResult.noConfusion hcon
      · simp only [UpdateOnPassEntry, hclient, h1, if_neg hp1]
        exact fun hcon => UpdateResult.noConfusion hcon

/-- Witness for the amended C9: at `entryPC01` (three well-shaped fields)
the update completes without any out-of-bounds panic. -/
theorem update_oob_characterization_witness :
    (UpdateOnPassEntry cleanUpdateEnv entryPC01 recPC01).result ≠ .oobPanic 1 ∧
    (UpdateOnPassEntry cleanUpdateEnv entryPC01 recPC01).result ≠ .oobPanic 2 := by
  have h := update_oob_characterization cleanUpdateEnv entryPC01 recPC01 rfl
  exact ⟨h.2.2.2 (by decide) 1, h.2.2.2 (by decide) 2⟩

end LapsToOnepass
